import Mathlib

/-!
Verification development for the `rpg_agent` repository.

The Python modules under `rpg_world_agent/core/` are shallowly embedded:
pure functions become Lean functions, mutating methods become explicit
state-passing functions, wall-clock reads (`time.time()`) become an
explicit `now : Int` argument (integer seconds), fallible code returns
`Except`/`Option`, and Python runtime values appearing in the relevant
dictionaries are embedded by the inductive `PyVal`.
-/

namespace RPG

/-- Exceptions of the embedded Python code that the development tracks. -/
inductive PyErr where
  | indexError
  | nameError
  | typeError
  | valueError
  deriving DecidableEq, Repr

/-- An inventory item as stored in the player-state inventory list:
either a bare id string or a mapping with string fields (`item_id`, ...). -/
inductive InvItem where
  | istr (s : String)
  | idict (fields : List (String × String))
  deriving DecidableEq, Repr

/-- Python values occurring in the dictionaries handled by the verified
code paths: `None`, strings, ints, bools, lists of strings, and the
inventory sub-mapping (embedded through its `items` list, the only part
the code reads). -/
inductive PyVal where
  | vnone
  | vstr (s : String)
  | vint (n : Int)
  | vbool (b : Bool)
  | vstrlist (l : List String)
  | vinv (items : List InvItem)
  deriving DecidableEq, Repr

/-- A Python `dict[str, Any]`, insertion ordered. -/
abbrev PyDict := List (String × PyVal)

/-- Association-list lookup (Python `d.get(k)` / `d[k]` found case). -/
def alistGet {β : Type} (l : List (String × β)) (k : String) : Option β :=
  (l.find? (fun p => p.fst == k)).map Prod.snd

/-- Python `d[k] = v`: replace in place if the key exists, else append
(dicts keep insertion order; assignment keeps the original position). -/
def alistSet {β : Type} (l : List (String × β)) (k : String) (v : β) :
    List (String × β) :=
  match l with
  | [] => [(k, v)]
  | p :: t => if p.fst == k then (k, v) :: t else p :: alistSet t k v

/-- Python `d.pop(k)` / `del d[k]` (key removal). -/
def alistPop {β : Type} (l : List (String × β)) (k : String) :
    List (String × β) :=
  l.filter (fun p => !(p.fst == k))

/-- Python `d.get(k, dflt)`. -/
def pyGetD (d : PyDict) (k : String) (dflt : PyVal) : PyVal :=
  (alistGet d k).getD dflt

/-- Python `str.isspace` characters occurring in ASCII input (space,
tab, newline, carriage return, vertical tab, form feed). -/
def pyIsSpace (c : Char) : Bool :=
  c == ' ' || c == '\t' || c == '\n' || c == '\r' || c.toNat == 11 || c.toNat == 12

/-- Python `str.strip()` on the character list (ASCII whitespace). -/
def pyStrip (l : List Char) : List Char :=
  ((l.dropWhile pyIsSpace).reverse.dropWhile pyIsSpace).reverse

/-- Decimal digit run to a number (`none` on an empty or non-digit run). -/
def digitsToNat : List Char → Nat → Option Nat
  | [], acc => some acc
  | c :: rest, acc =>
      if c.isDigit then digitsToNat rest (acc * 10 + (c.toNat - 48))
      else none

/-- Python `int(s)` on a string: optional surrounding whitespace, an
optional sign, then decimal digits; anything else raises `ValueError`
(surfaced as `none`). -/
def pyParseInt (s : String) : Option Int :=
  match pyStrip s.data with
  | [] => none
  | '-' :: t => if t.isEmpty then none else (digitsToNat t 0).map (fun n => -(n : Int))
  | '+' :: t => if t.isEmpty then none else (digitsToNat t 0).map (fun n => (n : Int))
  | t => (digitsToNat t 0).map (fun n => (n : Int))

/-- Python `int(x)` on an embedded value, with the caller's fallback used
when the conversion raises `TypeError`/`ValueError`. -/
def pyIntOr (v : PyVal) (fallback : Int) : Int :=
  match v with
  | .vint n => n
  | .vbool b => if b then 1 else 0
  | .vstr s => (pyParseInt s).getD fallback
  | _ => fallback

/-- Code-point order on strings (how Python compares `str`). -/
def charListLe : List Char → List Char → Bool
  | [], _ => true
  | _ :: _, [] => false
  | a :: as, b :: bs =>
      if a.toNat < b.toNat then true
      else if a.toNat == b.toNat then charListLe as bs
      else false

/-- Ordered insertion for `pySorted`. -/
def insertStr (a : String) : List String → List String
  | [] => [a]
  | b :: t => if charListLe a.data b.data then a :: b :: t else b :: insertStr a t

/-- Python `sorted` on a list of strings (code-point order). -/
def pySorted (l : List String) : List String := l.foldr insertStr []

namespace LazyLoader

/-- `ContentType` of `core/lazy_loader.py`. -/
inductive ContentType where
  | location
  | npc
  | item
  | quest
  | dialogue
  | narrative
  | descr
  | custom
  deriving DecidableEq, Repr

/-- `GenerationReason` of `core/lazy_loader.py`; note the enum has
members for miss, staleness, forced refresh and context change but no
member naming a cache hit. -/
inductive GenerationReason where
  | cache_miss
  | stale_cache
  | force_refresh
  | context_change
  | new_request
  | no_similar
  deriving DecidableEq, Repr

/-- `CacheEntry` of `core/lazy_loader.py`; the payload type is a
parameter `α` standing for Python `Any`. -/
structure CacheEntry (α : Type) where
  key : String
  content_type : ContentType
  content : α
  context_hash : String
  created_at : Int
  last_accessed : Int
  access_count : Nat := 0
  ttl_seconds : Int := 3600
  tags : List String := []
  deriving DecidableEq, Repr

/-- `CacheEntry.is_expired`: `time.time() - created_at > ttl_seconds`. -/
def CacheEntry.is_expired {α : Type} (e : CacheEntry α) (now : Int) : Bool :=
  now - e.created_at > e.ttl_seconds

/-- `CacheEntry.is_context_valid`. -/
def CacheEntry.is_context_valid {α : Type} (e : CacheEntry α)
    (current_context_hash : String) : Bool :=
  e.context_hash == current_context_hash

/-- `LazyLoadingConfig` of `core/lazy_loader.py` (similarity threshold
0.8 is kept as the rational 4/5). -/
structure LazyLoadingConfig where
  cache_ttl_default : Int := 3600
  cache_ttl_location : Int := 7200
  cache_ttl_npc : Int := 1800
  cache_ttl_narrative : Int := 300
  max_cache_size : Nat := 1000
  similarity_threshold_num : Nat := 4
  similarity_threshold_den : Nat := 5
  max_calls_per_minute : Nat := 20
  min_interval_ms : Int := 100
  reuse_similar_content : Bool := true
  context_aware_caching : Bool := true
  smart_expiration : Bool := true
  deriving DecidableEq, Repr

/-- `ContentCache`: the `_cache` dict (insertion ordered) plus the
`_type_index` mapping a content type to the set of keys holding it. -/
structure ContentCache (α : Type) where
  config : LazyLoadingConfig
  cache : List (String × CacheEntry α)
  type_index : List (ContentType × List String)
  deriving DecidableEq, Repr

/-- Remove a key from one type's index set (`set.discard`). -/
def tiDiscard (ti : List (ContentType × List String))
    (ct : ContentType) (key : String) : List (ContentType × List String) :=
  ti.map (fun p => if p.fst == ct then (p.fst, p.snd.filter (fun k => !(k == key))) else p)

/-- Add a key to one type's index set (`set.add`); absent types get a
fresh singleton, mirroring `_type_index` being pre-seeded per type. -/
def tiAdd (ti : List (ContentType × List String))
    (ct : ContentType) (key : String) : List (ContentType × List String) :=
  if (ti.find? (fun p => p.fst == ct)).isSome then
    ti.map (fun p =>
      if p.fst == ct then (p.fst, if key ∈ p.snd then p.snd else p.snd ++ [key]) else p)
  else ti ++ [(ct, [key])]

/-- An empty `ContentCache` over the given configuration. -/
def ContentCache.mk0 (α : Type) (config : LazyLoadingConfig) : ContentCache α :=
  { config := config, cache := [], type_index := [] }

/-- `ContentCache.get`: returns the entry stored at the key, if any,
after stamping `last_accessed` and bumping `access_count`.  It performs
no expiry and no context check. -/
def ContentCache.get {α : Type} (c : ContentCache α) (key : String) (now : Int) :
    Option (CacheEntry α) × ContentCache α :=
  match alistGet c.cache key with
  | none => (none, c)
  | some e =>
      let e' := { e with last_accessed := now, access_count := e.access_count + 1 }
      (some e', { c with cache := alistSet c.cache key e' })

/-- `ContentCache.delete`. -/
def ContentCache.delete {α : Type} (c : ContentCache α) (key : String) :
    Bool × ContentCache α :=
  match alistGet c.cache key with
  | some e =>
      (true, { c with cache := alistPop c.cache key,
                      type_index := tiDiscard c.type_index e.content_type key })
  | none => (false, c)

/-- `ContentCache._evict_lru`: drop the entry minimal under the
lexicographic key `(access_count, last_accessed)`; ties resolve to the
earliest-inserted key, as Python's `min` over dict iteration does. -/
def ContentCache.evict_lru {α : Type} (c : ContentCache α) : ContentCache α :=
  match c.cache with
  | [] => c
  | p0 :: rest =>
      let lru := rest.foldl
        (fun best p =>
          if p.snd.access_count < best.snd.access_count then p
          else if p.snd.access_count == best.snd.access_count &&
                  p.snd.last_accessed < best.snd.last_accessed then p
          else best) p0
      (c.delete lru.fst).snd

/-- `ContentCache._get_default_ttl`. -/
def ContentCache.get_default_ttl {α : Type} (c : ContentCache α)
    (content_type : ContentType) : Int :=
  match content_type with
  | .location => c.config.cache_ttl_location
  | .npc => c.config.cache_ttl_npc
  | .narrative => c.config.cache_ttl_narrative
  | _ => c.config.cache_ttl_default

/-- `ContentCache.set`: evict when at capacity, compute the TTL
(`ttl_seconds or default`, so a `0` argument also falls back, as
Python's `or` does), then install a fresh entry and re-index. -/
def ContentCache.set {α : Type} (c : ContentCache α) (key : String) (content : α)
    (content_type : ContentType) (context_hash : String)
    (ttl_seconds : Option Int) (tags : Option (List String)) (now : Int) :
    ContentCache α :=
  let c1 := if c.cache.length ≥ c.config.max_cache_size then c.evict_lru else c
  let ttl : Int :=
    match ttl_seconds with
    | some t => if t == 0 then c.get_default_ttl content_type else t
    | none => c.get_default_ttl content_type
  let entry : CacheEntry α :=
    { key := key, content_type := content_type, content := content,
      context_hash := context_hash, created_at := now, last_accessed := now,
      access_count := 0, ttl_seconds := ttl, tags := (tags.getD []) }
  let ti :=
    match alistGet c1.cache key with
    | some old => tiDiscard c1.type_index old.content_type key
    | none => c1.type_index
  { c1 with cache := alistSet c1.cache key entry,
            type_index := tiAdd ti content_type key }

/-- `RateLimiter` of `core/lazy_loader.py` (timestamps in seconds). -/
structure RateLimiter where
  max_calls_per_minute : Nat := 20
  min_interval_ms : Int := 100
  call_times : List Int := []
  deriving DecidableEq, Repr

/-- `RateLimiter.can_call`: drop timestamps older than 60 s (this
mutates the window, so the updated limiter is returned), then refuse on
a full window or on a violated minimum interval. -/
def RateLimiter.can_call (rl : RateLimiter) (now : Int) : Bool × RateLimiter :=
  let times := rl.call_times.filter (fun t => t > now - 60)
  let rl' := { rl with call_times := times }
  if times.length ≥ rl.max_calls_per_minute then (false, rl')
  else
    match times.getLast? with
    | some last_call =>
        if (now - last_call) * 1000 < rl.min_interval_ms then (false, rl')
        else (true, rl')
    | none => (true, rl')

/-- `RateLimiter.record_call`. -/
def RateLimiter.record_call (rl : RateLimiter) (now : Int) : RateLimiter :=
  { rl with call_times := rl.call_times ++ [now] }

/-- `LoadContext` of `core/lazy_loader.py`, flattened to the world-state
fields its `compute_hash` actually reads. -/
structure LoadContext where
  player_id : String
  location : String
  crisis_level : Int
  total_minutes : Int
  flag_names : List String
  deriving DecidableEq, Repr

/-- `LoadContext.compute_hash`: the md5 digest of the canonical JSON of
`(player_id, location, crisis_level, total_minutes // 60, sorted flag names)`
is modelled by that canonical serialization itself (a deterministic
injective stand-in for the digest). -/
def LoadContext.compute_hash (ctx : LoadContext) : String :=
  ctx.player_id ++ "|" ++ ctx.location ++ "|" ++ toString ctx.crisis_level
    ++ "|" ++ toString (ctx.total_minutes / 60) ++ "|"
    ++ String.intercalate "," (pySorted ctx.flag_names)

/-- The `_stats` counters of `LazyLoadingStrategy`. -/
structure LazyStats where
  cache_hits : Nat := 0
  cache_misses : Nat := 0
  similar_reused : Nat := 0
  calls_blocked : Nat := 0
  total_calls : Nat := 0
  deriving DecidableEq, Repr

/-- `LazyLoadingStrategy` state (the similarity matcher is stateless up
to its threshold, which lives in the config). -/
structure LazyLoadingStrategy (α : Type) where
  config : LazyLoadingConfig
  cache : ContentCache α
  rate_limiter : RateLimiter
  stats : LazyStats
  deriving DecidableEq, Repr

/-- `LazyLoadingStrategy.should_generate_content`: force, miss, stale
and context-change checks in order; the residual cache-hit branch
returns `(false, CACHE_MISS)` — the enum has no hit member. -/
def LazyLoadingStrategy.should_generate_content {α : Type}
    (s : LazyLoadingStrategy α) (key : String) (context : LoadContext)
    (_content_type : ContentType) (force : Bool) (now : Int) :
    (Bool × GenerationReason) × LazyLoadingStrategy α :=
  let s0 := { s with stats := { s.stats with total_calls := s.stats.total_calls + 1 } }
  if force then ((true, .force_refresh), s0)
  else
    let r := s0.cache.get key now
    let s1 := { s0 with cache := r.snd }
    match r.fst with
    | none =>
        ((true, .cache_miss),
         { s1 with stats := { s1.stats with cache_misses := s1.stats.cache_misses + 1 } })
    | some cached =>
        if cached.is_expired now then
          ((true, .stale_cache),
           { s1 with stats := { s1.stats with cache_misses := s1.stats.cache_misses + 1 } })
        else if s1.config.context_aware_caching &&
                !(cached.is_context_valid context.compute_hash) then
          ((true, .context_change),
           { s1 with stats := { s1.stats with cache_misses := s1.stats.cache_misses + 1 } })
        else
          ((false, .cache_miss),
           { s1 with stats := { s1.stats with cache_hits := s1.stats.cache_hits + 1 } })

/-- `LazyLoadingStrategy.get_cached_or_generate`: run the decision
function; when generation is needed consult the rate limiter — on
refusal bump `calls_blocked` and fall back to whatever entry the cache
holds (expired or not), else invoke the generator, record the call and
install the fresh entry; when generation is not needed serve the cache. -/
def LazyLoadingStrategy.get_cached_or_generate {α : Type}
    (s : LazyLoadingStrategy α) (key : String) (context : LoadContext)
    (content_type : ContentType) (generator : Unit → α) (force : Bool)
    (now : Int) : (Option α × Bool) × LazyLoadingStrategy α :=
  let d := s.should_generate_content key context content_type force now
  let s1 := d.snd
  if d.fst.fst then
    let cc := s1.rate_limiter.can_call now
    if !cc.fst then
      let s2 := { s1 with rate_limiter := cc.snd,
                          stats := { s1.stats with calls_blocked := s1.stats.calls_blocked + 1 } }
      let r := s2.cache.get key now
      match r.fst with
      | some cached => ((some cached.content, false), { s2 with cache := r.snd })
      | none => ((none, false), { s2 with cache := r.snd })
    else
      let content := generator ()
      let rl2 := cc.snd.record_call now
      let context_hash := if s1.config.context_aware_caching then context.compute_hash else ""
      let c2 := s1.cache.set key content content_type context_hash none none now
      ((some content, true), { s1 with rate_limiter := rl2, cache := c2 })
  else
    let r := s1.cache.get key now
    ((r.fst.map (fun e => e.content), false), { s1 with cache := r.snd })

end LazyLoader

/-- Python truthiness (`if not x`) on embedded values. -/
def pyTruthy (v : PyVal) : Bool :=
  match v with
  | .vnone => false
  | .vstr s => !(s == "")
  | .vint n => !(n == 0)
  | .vbool b => b
  | .vstrlist l => !l.isEmpty
  | .vinv items => !items.isEmpty

/-- Python `str(x)` as used by f-string key formatting. -/
def pyStrOf (v : PyVal) : String :=
  match v with
  | .vnone => "None"
  | .vstr s => s
  | .vint n => toString n
  | .vbool b => if b then "True" else "False"
  | .vstrlist l => toString l
  | .vinv items => toString (items.length)

namespace MapEngine

/-- The JSON payload written on an edge-hash field by
`connect_nodes_with_concept`: target id, the literal kind `"Travel"`,
and the embedded route-concept dict. -/
structure EdgePayload where
  target_id : String
  edge_type : String
  route_info : PyDict
  deriving DecidableEq, Repr

/-- The Redis slice `MapTopologyEngine` uses: node JSON under
`rpg:map:node:<id>` and an out-edge hash under `rpg:map:edges:<id>`
(both modelled keyed by the id; key TTLs are not time-relevant here). -/
structure MapStore where
  nodes : List (String × PyDict)
  edges : List (String × List (String × EdgePayload))
  deriving DecidableEq, Repr

/-- The empty store. -/
def MapStore.empty : MapStore := { nodes := [], edges := [] }

/-- `MapTopologyEngine.save_node`: stamp `node_id` and `type` into the
payload and persist it (the in-memory store never raises, so the result
flag is always true). -/
def save_node (st : MapStore) (node_id : String) (data : PyDict)
    (node_type : String) : Bool × MapStore :=
  let data' := alistSet (alistSet data "node_id" (.vstr node_id)) "type" (.vstr node_type)
  (true, { st with nodes := alistSet st.nodes node_id data' })

/-- `MapTopologyEngine.get_node`. -/
def get_node (st : MapStore) (node_id : String) : Option PyDict :=
  alistGet st.nodes node_id

/-- Redis `HEXISTS` on the edge hash of a node (missing hash ⇒ false). -/
def hexists (st : MapStore) (node_id : String) (fieldName : String) : Bool :=
  match alistGet st.edges node_id with
  | some h => (alistGet h fieldName).isSome
  | none => false

/-- Redis `HSET` on the edge hash of a node (missing hash is created). -/
def hset (st : MapStore) (node_id : String) (fieldName : String)
    (payload : EdgePayload) : MapStore :=
  let h := (alistGet st.edges node_id).getD []
  { st with edges := alistSet st.edges node_id (alistSet h fieldName payload) }

/-- Field read on the edge hash of a node. -/
def hget (st : MapStore) (node_id : String) (fieldName : String) :
    Option EdgePayload :=
  match alistGet st.edges node_id with
  | some h => alistGet h fieldName
  | none => none

/-- `MapTopologyEngine.connect_nodes_with_concept`: write the field
`Travel:<to>` on `from`'s hash and `Travel:<from>` on `to`'s hash, both
payloads embedding the same `route_data`. -/
def connect_nodes_with_concept (st : MapStore) (from_id to_id : String)
    (route_data : PyDict) : Bool × MapStore :=
  let payload_a_to_b : EdgePayload :=
    { target_id := to_id, edge_type := "Travel", route_info := route_data }
  let payload_b_to_a : EdgePayload :=
    { target_id := from_id, edge_type := "Travel", route_info := route_data }
  let st1 := hset st from_id ("Travel:" ++ to_id) payload_a_to_b
  let st2 := hset st1 to_id ("Travel:" ++ from_id) payload_b_to_a
  (true, st2)

/-- The node payload persisted per region by `ingest_l2_graph` phase 1:
every field except `neighbors`. -/
def regionNodePayload (r : PyDict) : PyDict :=
  r.filter (fun p => !(p.fst == "neighbors"))

/-- The neighbor id list `r_data.get("neighbors", [])` (list-valued as
produced by the world generator; other value shapes are not modelled). -/
def regionNeighbors (r : PyDict) : List String :=
  match alistGet r "neighbors" with
  | some (.vstrlist l) => l
  | _ => []

/-- `MapTopologyEngine.ingest_l2_graph`.  `routeGen` stands for
`_generate_route_concept` (node reads, the LLM round trip and its two
fallback dicts); the claims hold for every such function.  Phase 1
persists each region with a truthy `region_id`; phase 2 walks neighbor
lists in order, skips already-present `Travel:<to>` fields and otherwise
connects both directions with one synthesized route concept. -/
def ingest_l2_graph (st : MapStore) (generated_regions : List PyDict)
    (routeGen : MapStore → String → String → PyDict) : MapStore :=
  let st1 := generated_regions.foldl
    (fun acc r =>
      match alistGet r "region_id" with
      | some rid =>
          if pyTruthy rid then (save_node acc (pyStrOf rid) (regionNodePayload r) "L2").snd
          else acc
      | none => acc) st
  generated_regions.foldl
    (fun acc r =>
      let from_id := match alistGet r "region_id" with
        | none => "None"
        | some v => pyStrOf v
      (regionNeighbors r).foldl
        (fun acc2 to_id =>
          if hexists acc2 from_id ("Travel:" ++ to_id) then acc2
          else
            let route_concept := routeGen acc2 from_id to_id
            (connect_nodes_with_concept acc2 from_id to_id route_concept).snd)
        acc) st1

/-- `MapTopologyEngine.create_dynamic_sub_location`.  The LLM round trip
plus JSON extraction is the parameter `llm_node_info` (`none` models a
missing LLM response, a raised exception or unextractable JSON) and the
fresh `uuid4().hex` is the parameter `new_node_id`.  The risk level is
`int(raw)` with fallback 1 — the source applies no clamping. -/
def create_dynamic_sub_location (st : MapStore) (parent_id keyword : String)
    (llm_configured : Bool) (llm_node_info : Option PyDict)
    (new_node_id : String) : Option String × MapStore :=
  match get_node st parent_id with
  | none => (none, st)
  | some _parent_node =>
    if !llm_configured then (none, st)
    else
      match llm_node_info with
      | none => (none, st)
      | some node_info =>
        let risk_level := pyIntOr (pyGetD node_info "risk_level" (.vint 1)) 1
        let node_data : PyDict :=
          [("name", pyGetD node_info "name" (.vstr (keyword ++ "之地"))),
           ("desc", pyGetD node_info "desc" (.vstr "")),
           ("geo_feature", pyGetD node_info "geo_feature" (.vstr "未知")),
           ("risk_level", .vint risk_level),
           ("parent_id", .vstr parent_id),
           ("keyword", .vstr keyword)]
        let r1 := save_node st new_node_id node_data "L3_Dynamic"
        if !r1.fst then (none, st)
        else
          let route_data : PyDict :=
            [("route_name", pyGetD node_info "connection_path_name" (.vstr "未知通路")),
             ("description", .vstr "Generated path linking parent location to dynamic sub-location."),
             ("risk_level", .vint risk_level)]
          let r2 := connect_nodes_with_concept r1.snd parent_id new_node_id route_data
          if !r2.fst then (none, r2.snd)
          else (some new_node_id, r2.snd)

/-- The pairing invariant claimed for the edge store: whenever the edge
hash of `a` holds a `Travel:b` field, that field targets `b`, the edge
hash of `b` holds the mirror `Travel:a` field targeting `a`, and the two
payloads embed the identical route-concept dict. -/
def EdgesPaired (st : MapStore) : Prop :=
  ∀ a b p, hget st a ("Travel:" ++ b) = some p →
    p.target_id = b ∧ p.edge_type = "Travel" ∧
    ∃ q, hget st b ("Travel:" ++ a) = some q ∧
      q.target_id = a ∧ q.edge_type = "Travel" ∧ q.route_info = p.route_info

end MapEngine

/-- `EventType` of `core/event_system.py`. -/
inductive EventType where
  | discovery
  | exploration_complete
  | hidden_revealed
  | npc_meet
  | npc_conversation
  | relationship_change
  | alliance_formed
  | combat_start
  | combat_end
  | quest_accepted
  | quest_completed
  | quest_failed
  | item_acquired
  | item_used
  | world_event
  | crisis_triggered
  | time_pass
  | custom
  deriving DecidableEq, Repr

/-- The `.value` string of each `EventType` member. -/
def EventType.value : EventType → String
  | .discovery => "discovery"
  | .exploration_complete => "exploration_complete"
  | .hidden_revealed => "hidden_revealed"
  | .npc_meet => "npc_meet"
  | .npc_conversation => "npc_conversation"
  | .relationship_change => "relationship_change"
  | .alliance_formed => "alliance_formed"
  | .combat_start => "combat_start"
  | .combat_end => "combat_end"
  | .quest_accepted => "quest_accepted"
  | .quest_completed => "quest_completed"
  | .quest_failed => "quest_failed"
  | .item_acquired => "item_acquired"
  | .item_used => "item_used"
  | .world_event => "world_event"
  | .crisis_triggered => "crisis_triggered"
  | .time_pass => "time_pass"
  | .custom => "custom"

/-- `EventPriority` of `core/event_system.py`. -/
inductive EventPriority where
  | critical
  | high
  | medium
  | low
  deriving DecidableEq, Repr

/-- `EventData` of `core/event_system.py`. -/
structure EventData where
  event_type : EventType
  event_id : String
  timestamp : Int
  player_id : String
  session_id : String
  location : String
  priority : EventPriority := .medium
  data : PyDict := []
  tags : List String := []
  processed : Bool := false
  related_events : List String := []
  deriving DecidableEq, Repr

namespace EventSystem

/-- Integer bindings visible to `EventSystem.get_event_summary` when its
counter update is evaluated.  `core/event_system.py` defines no binding
(module-, class- or local-scope) for the identifier `探索相关事件` used
at line 446, so every lookup of it yields `none` and evaluating the name
raises `NameError`. -/
def visibleIntBindings (_name : String) : Option Int := none

/-- The dictionary returned by `EventSystem.get_event_summary`. -/
structure EventSummary where
  total_events : Nat
  event_types : List (String × Int)
  locations : List (String × Int)
  tags : List (String × Int)
  last_event_time : Option Int
  deriving DecidableEq, Repr

/-- The body of the per-type counting loop of `get_event_summary`:
`type_counts[type_name] = type_counts.get(type_name, 0) + 探索相关事件`.
Python evaluates the `get` first, then the (undefined) name. -/
def typeCountStep (tc : List (String × Int)) (e : EventData) :
    Except PyErr (List (String × Int)) :=
  let type_name := e.event_type.value
  let base := (alistGet tc type_name).getD 0
  match visibleIntBindings "探索相关事件" with
  | none => .error .nameError
  | some v => .ok (alistSet tc type_name (base + v))

/-- `EventSystem.get_event_summary`, applied to the already-fetched
reverse-chronological event list (`get_all_events(limit=1000)`): count
per type (raising `NameError` on the undefined identifier), per location
and per tag, then assemble the summary dict. -/
def get_event_summary (all_events : List EventData) :
    Except PyErr EventSummary := do
  let type_counts ← all_events.foldlM typeCountStep []
  let location_counts := all_events.foldl
    (fun lc e => alistSet lc e.location (((alistGet lc e.location).getD 0) + 1)) []
  let tag_counts := all_events.foldl
    (fun tcs e => e.tags.foldl
      (fun acc tag => alistSet acc tag (((alistGet acc tag).getD 0) + 1)) tcs) []
  .ok { total_events := all_events.length,
        event_types := type_counts,
        locations := location_counts,
        tags := tag_counts,
        last_event_time := (all_events.head?).map (fun e => e.timestamp) }

end EventSystem

namespace WorldState

/-- `QuestState` of `core/world_state.py` restricted to the fields the
verified quest operations read or write (rewards, objectives and the
giver/location references are never consulted by them). -/
structure QuestState where
  quest_id : String
  name : String
  description : String
  stage : Int := 0
  max_stage : Int := 1
  status : String := "available"
  progress : Int := 0
  max_progress : Int := 100
  accepted_time : Option Int := none
  completed_time : Option Int := none
  deriving DecidableEq, Repr

/-- The `WorldStateManager` slice the quest claims touch: the quest
registry, the crisis ordinal (`CrisisLevel.value`, 0–5), the per-region
discovered flags and the world clock in total minutes. -/
structure WorldStateM where
  quests : List (String × QuestState)
  crisis_level : Int := 0
  regions : List (String × Bool) := []
  total_minutes : Int := 480
  deriving DecidableEq, Repr

/-- `WorldStateManager.register_quest`. -/
def register_quest (w : WorldStateM) (quest_id name description : String) :
    WorldStateM :=
  let q : QuestState := { quest_id := quest_id, name := name, description := description }
  { w with quests := alistSet w.quests quest_id q }

/-- `WorldStateManager.get_quest_state`. -/
def get_quest_state (w : WorldStateM) (quest_id : String) : Option QuestState :=
  alistGet w.quests quest_id

/-- `WorldStateManager.accept_quest`: only an existing quest whose
status is `"available"` turns `"active"`. -/
def accept_quest (w : WorldStateM) (quest_id : String) (now : Int) :
    Bool × WorldStateM :=
  match alistGet w.quests quest_id with
  | some q =>
      if q.status == "available" then
        let q' := { q with status := "active", accepted_time := some now }
        (true, { w with quests := alistSet w.quests quest_id q' })
      else (false, w)
  | none => (false, w)

/-- `WorldStateManager.complete_quest`: only an `"active"` quest turns
`"completed"`. -/
def complete_quest (w : WorldStateM) (quest_id : String) (now : Int) :
    Bool × WorldStateM :=
  match alistGet w.quests quest_id with
  | some q =>
      if q.status == "active" then
        let q' := { q with status := "completed", completed_time := some now }
        (true, { w with quests := alistSet w.quests quest_id q' })
      else (false, w)
  | none => (false, w)

/-- `WorldStateManager.fail_quest`: only an `"active"` quest turns
`"failed"`. -/
def fail_quest (w : WorldStateM) (quest_id : String) : Bool × WorldStateM :=
  match alistGet w.quests quest_id with
  | some q =>
      if q.status == "active" then
        let q' := { q with status := "failed" }
        (true, { w with quests := alistSet w.quests quest_id q' })
      else (false, w)
  | none => (false, w)

/-- `WorldStateManager.set_crisis_level` (the notify hook is a pure
observer). -/
def set_crisis_level (w : WorldStateM) (level : Int) : WorldStateM :=
  if w.crisis_level ≠ level then { w with crisis_level := level } else w

/-- `WorldStateManager.advance_time`. -/
def advance_time (w : WorldStateM) (minutes : Int) : WorldStateM :=
  { w with total_minutes := w.total_minutes + minutes }

/-- `WorldStateManager.discover_region`. -/
def discover_region (w : WorldStateM) (region_id : String) : WorldStateM :=
  if (alistGet w.regions region_id).isSome then
    { w with regions := alistSet w.regions region_id true }
  else w

/-- The quest id `event.data.get("quest_id", "")` as a registry key:
a string value is the key itself, a missing field defaults to `""`, and
a non-string value can never match the string-keyed registry. -/
def questKeyOf (data : PyDict) : Option String :=
  match alistGet data "quest_id" with
  | some (.vstr s) => some s
  | none => some ""
  | some _ => none

/-- `WorldStateManager.handle_event`: the event-driven state mutation
(discovery marking, quest transitions with crisis decrement on
completion, saturating crisis arithmetic, time advance). -/
def handle_event (w : WorldStateM) (e : EventData) (now : Int) : WorldStateM :=
  match e.event_type with
  | .discovery =>
      match alistGet e.data "target" with
      | some (.vstr s) => if s ≠ "" then discover_region w s else w
      | _ => w
  | .quest_accepted =>
      match questKeyOf e.data with
      | some qid => (accept_quest w qid now).snd
      | none => w
  | .quest_completed =>
      let w1 :=
        match questKeyOf e.data with
        | some qid => (complete_quest w qid now).snd
        | none => w
      if w1.crisis_level > 1 then set_crisis_level w1 (w1.crisis_level - 1) else w1
  | .world_event =>
      let crisis_change : Int :=
        match alistGet e.data "crisis_change" with
        | some (.vint n) => n
        | _ => 0
      set_crisis_level w (max 0 (min 5 (w.crisis_level + crisis_change)))
  | .time_pass =>
      let minutes : Int :=
        match alistGet e.data "minutes" with
        | some (.vint n) => n
        | _ => 10
      advance_time w minutes
  | _ => w

/-- One call of the quest-affecting interface: the three direct quest
transitions plus event-triggered handling. -/
inductive QuestOp where
  | accept (quest_id : String)
  | complete (quest_id : String)
  | fail (quest_id : String)
  | event (e : EventData)
  deriving Repr

/-- Apply one call. -/
def applyQuestOp (w : WorldStateM) (op : QuestOp) (now : Int) : WorldStateM :=
  match op with
  | .accept qid => (accept_quest w qid now).snd
  | .complete qid => (complete_quest w qid now).snd
  | .fail qid => (fail_quest w qid).snd
  | .event e => handle_event w e now

/-- Apply a sequence of calls. -/
def applyQuestOps (w : WorldStateM) (ops : List (QuestOp × Int)) : WorldStateM :=
  ops.foldl (fun acc p => applyQuestOp acc p.fst p.snd) w

/-- The status of a quest, if registered. -/
def statusOf (w : WorldStateM) (quest_id : String) : Option String :=
  (alistGet w.quests quest_id).map (fun q => q.status)

/-- One legal arrow of the quest state machine of the specification:
`available → active → ∈ (completed, failed, abandoned)`. -/
def ValidArrow (s s' : String) : Prop :=
  (s = "available" ∧ s' = "active") ∨
  (s = "active" ∧ (s' = "completed" ∨ s' = "failed" ∨ s' = "abandoned"))

/-- The arrow relation lifted to optional statuses (an unregistered
quest stays unregistered). -/
def OptArrow (a b : Option String) : Prop :=
  ∃ s s', a = some s ∧ b = some s' ∧ ValidArrow s s'

end WorldState

namespace Loader

/-- `LoadTrigger` of `core/context_loader.py`. -/
inductive LoadTrigger where
  | location_based
  | event_based
  | player_state
  | combo
  | always
  | never
  deriving DecidableEq, Repr

/-- `ContentType` of `core/context_loader.py`. -/
inductive LContentType where
  | location
  | npc
  | item
  | quest
  | lore
  | encounter
  | custom
  deriving DecidableEq, Repr

/-- `LoadCondition` of `core/context_loader.py`; the optional custom
predicate receives the player state and (the log of) the event system. -/
structure LoadCondition where
  trigger_type : LoadTrigger
  at_location : Option String := none
  in_region : Option String := none
  visited : List String := []
  requires_events : List String := []
  excludes_events : List String := []
  requires_event_types : List EventType := []
  min_level : Int := 1
  max_level : Int := 100
  has_tags : List String := []
  has_items : List String := []
  state_conditions : PyDict := []
  custom_condition : Option (PyDict → List EventData → Bool) := none

/-- `LoadableContent` of `core/context_loader.py`. -/
structure LoadableContent where
  content_id : String
  content_type : LContentType
  name : String
  description : String
  condition : LoadCondition
  data : PyDict := []
  priority : Int := 10
  loaded : Bool := false
  repeatable : Bool := false
  on_load_events : List String := []
  excludes : List String := []
  replaces : List String := []

/-- `LoadContext` of `core/context_loader.py`: player identity and
state, the event log (most recent first, as `get_all_events` returns
it), a read view of the map nodes, and the per-context set of already
loaded content ids. -/
structure LoadContextC where
  player_id : String
  current_location : String
  player_state : PyDict
  events : List EventData
  nodes : List (String × PyDict)
  loaded_content : List String := []

/-- `LoadContext.get_recent_events`. -/
def LoadContextC.get_recent_events (ctx : LoadContextC) (limit : Nat) :
    List EventData :=
  ctx.events.take limit

/-- `LoadContext.get_events_by_type` (full log, via the event system). -/
def LoadContextC.get_events_by_type (ctx : LoadContextC) (et : EventType) :
    List EventData :=
  ctx.events.filter (fun e => e.event_type == et)

/-- `LoadContext.has_tag` (`tags` defaults to the empty list). -/
def LoadContextC.has_tag (ctx : LoadContextC) (tag : String) : Bool :=
  match alistGet ctx.player_state "tags" with
  | some (.vstrlist l) => tag ∈ l
  | _ => false

/-- `LoadContext.has_item`: scan the inventory's `items` list; a dict
item matches on its `item_id` field, a bare string on itself. -/
def LoadContextC.has_item (ctx : LoadContextC) (item_id : String) : Bool :=
  match alistGet ctx.player_state "inventory" with
  | some (.vinv items) =>
      items.any (fun it =>
        match it with
        | .istr s => s == item_id
        | .idict fields => (alistGet fields "item_id") == some item_id)
  | _ => false

/-- `LoadContext.get_level` (`level` defaults to 1; non-integer stored
levels are not modelled). -/
def LoadContextC.get_level (ctx : LoadContextC) : Int :=
  match alistGet ctx.player_state "level" with
  | some (.vint n) => n
  | _ => 1

/-- `LoadContext.is_content_loaded`. -/
def LoadContextC.is_content_loaded (ctx : LoadContextC) (content_id : String) :
    Bool :=
  content_id ∈ ctx.loaded_content

/-- `LoadContext.mark_content_loaded` (`set.add`). -/
def LoadContextC.mark_content_loaded (ctx : LoadContextC) (content_id : String) :
    LoadContextC :=
  if content_id ∈ ctx.loaded_content then ctx
  else { ctx with loaded_content := ctx.loaded_content ++ [content_id] }

/-- `ContextLoader._check_condition`: `ALWAYS` short-circuits to true,
`NEVER` to false; then each present clause may veto, in source order
(custom predicate, location, region, visited set, required/excluded
event ids, required event types, level bounds, tags, items, state
key/value conditions). -/
def check_condition (condition : LoadCondition) (context : LoadContextC) : Bool :=
  if condition.trigger_type == .always then true
  else if condition.trigger_type == .never then false
  else
    let customOk :=
      match condition.custom_condition with
      | some f => f context.player_state context.events
      | none => true
    if !customOk then false
    else if (match condition.at_location with
             | some loc => !(context.current_location == loc)
             | none => false) then false
    else if (match condition.in_region with
             | some region =>
                 !(match alistGet context.nodes context.current_location with
                   | some node => (alistGet node "region_id") == some (PyVal.vstr region)
                   | none => false)
             | none => false) then false
    else if (!condition.visited.isEmpty &&
             !(condition.visited.all (fun v =>
                (PyVal.vstr v) ∈ (context.get_events_by_type EventType.discovery).map
                  (fun (e : EventData) => pyGetD e.data "target" (PyVal.vstr ""))))) then false
    else if (!condition.requires_events.isEmpty &&
             !(condition.requires_events.all (fun eid =>
                eid ∈ (context.get_recent_events 100).map (fun (e : EventData) => e.event_id)))) then false
    else if (!condition.excludes_events.isEmpty &&
             (condition.excludes_events.any (fun eid =>
                eid ∈ (context.get_recent_events 100).map (fun (e : EventData) => e.event_id)))) then false
    else if (!condition.requires_event_types.isEmpty &&
             !(condition.requires_event_types.any (fun et =>
                et ∈ (context.get_recent_events 100).map (fun (e : EventData) => e.event_type)))) then false
    else if context.get_level < condition.min_level ||
            context.get_level > condition.max_level then false
    else if (!condition.has_tags.isEmpty &&
             !(condition.has_tags.all (fun t => context.has_tag t))) then false
    else if (!condition.has_items.isEmpty &&
             !(condition.has_items.all (fun i => context.has_item i))) then false
    else if (!condition.state_conditions.isEmpty &&
             (condition.state_conditions.any (fun p =>
                !((alistGet context.player_state p.fst).getD .vnone == p.snd)))) then false
    else true

/-- `ContextLoader` state: the registry `_loadable_content` (the
generator cache is untouched by the verified operations). -/
structure ContextLoader where
  session_id : String
  loadable_content : List (String × LoadableContent)

/-- `ContextLoader.register_content`. -/
def register_content (cl : ContextLoader) (content : LoadableContent) :
    ContextLoader :=
  { cl with loadable_content := alistSet cl.loadable_content content.content_id content }

/-- Stable ordered insertion by ascending priority (earlier elements
stay before later elements of equal priority, as Python's stable
`list.sort` does). -/
def insertByPriority (x : LoadableContent) : List LoadableContent → List LoadableContent
  | [] => [x]
  | y :: t => if y.priority < x.priority then y :: insertByPriority x t else x :: y :: t

/-- `candidates.sort(key=lambda x: x.priority)`. -/
def sortByPriority (l : List LoadableContent) : List LoadableContent :=
  l.foldr insertByPriority []

/-- One iteration of the candidate filter of `get_loadable_content`:
skip on a type mismatch, skip non-repeatable content already loaded in
this context, keep content whose condition holds. -/
def candidateStep (content_type : Option LContentType) (context : LoadContextC)
    (acc : List LoadableContent) (p : String × LoadableContent) :
    List LoadableContent :=
  let content := p.snd
  if (match content_type with
      | some ct => !(content.content_type == ct)
      | none => false) then acc
  else if !content.repeatable && context.is_content_loaded p.fst then acc
  else if check_condition content.condition context then acc ++ [content]
  else acc

/-- `ContextLoader.get_loadable_content`: filter by requested type, drop
non-repeatable content already loaded in this context, keep only content
whose condition holds, and sort (stably) by ascending priority. -/
def get_loadable_content (cl : ContextLoader) (context : LoadContextC)
    (content_type : Option LContentType) : List LoadableContent :=
  sortByPriority (cl.loadable_content.foldl (candidateStep content_type context) [])

/-- `ContextLoader.load_content`: unknown id or failed condition return
false; otherwise the on-load event loop has no observable effect (its
body is `pass`), the id is marked loaded on the context, the content's
`loaded` flag is set, and the call returns true.  Note that this method
checks neither `repeatable` nor `is_content_loaded`. -/
def load_content (cl : ContextLoader) (content_id : String)
    (context : LoadContextC) : Bool × (ContextLoader × LoadContextC) :=
  match alistGet cl.loadable_content content_id with
  | none => (false, (cl, context))
  | some content =>
      if !(check_condition content.condition context) then (false, (cl, context))
      else
        let context' := context.mark_content_loaded content_id
        let content' := { content with loaded := true }
        (true, ({ cl with loadable_content := alistSet cl.loadable_content content_id content' },
                context'))

end Loader

namespace Runtime

/-- A backtick character (the fenced-code marker). -/
def btChar : Char := Char.ofNat 96

/-- Case-insensitive test for the four letters `json` (the regex flag). -/
def isJson4 (d1 d2 d3 d4 : Char) : Bool :=
  (d1 == 'j' || d1 == 'J') && (d2 == 's' || d2 == 'S') &&
  (d3 == 'o' || d3 == 'O') && (d4 == 'n' || d4 == 'N')

/-- The cleaning step shared by the LLM-JSON consumers: delete every
occurrence of a fenced-code marker, optionally followed by `json` in any
case (Python `re.sub` with the ignore-case flag); scanning resumes right
after each deleted match. -/
def stripFences : List Char → List Char
  | b1 :: b2 :: b3 :: d1 :: d2 :: d3 :: d4 :: rest =>
      if b1 == btChar && b2 == btChar && b3 == btChar then
        if isJson4 d1 d2 d3 d4 then stripFences rest
        else stripFences (d1 :: d2 :: d3 :: d4 :: rest)
      else b1 :: stripFences (b2 :: b3 :: d1 :: d2 :: d3 :: d4 :: rest)
  | b1 :: b2 :: b3 :: rest =>
      if b1 == btChar && b2 == btChar && b3 == btChar then stripFences rest
      else b1 :: stripFences (b2 :: b3 :: rest)
  | c :: rest => c :: stripFences rest
  | [] => []

/-- Python `str.find(ch)` (position of first occurrence). -/
def pyFind (l : List Char) (ch : Char) : Option Nat :=
  l.findIdx? (fun c => c == ch)

/-- Python `str.rfind(ch)` (position of last occurrence). -/
def pyRFind (l : List Char) (ch : Char) : Option Nat :=
  (l.reverse.findIdx? (fun c => c == ch)).map (fun i => l.length - 1 - i)

/-- The default analysis dict of `_analyze_intent`. -/
def defaultAnalysis (user_input : String) : PyDict :=
  [("intent", .vstr "CHAT"), ("keyword", .vstr user_input)]

/-- `RuntimeEngine._analyze_intent`.  The LLM round trip is the
parameter `llm_call` (an exception or the raw response text) and
`json_loads` embeds the JSON parser on the extracted slice.  On an LLM
exception, on a response without an extractable JSON object, or on a
parse failure, the default `CHAT` analysis carrying the raw user input
is returned. -/
def analyze_intent (user_input : String) (llm_call : Except PyErr String)
    (json_loads : String → Except PyErr PyDict) : PyDict :=
  match llm_call with
  | .error _ => defaultAnalysis user_input
  | .ok content =>
      let cl := pyStrip (stripFences content.data)
      match pyFind cl '{', pyRFind cl '}' with
      | some s, some e =>
          match json_loads (String.mk ((cl.drop s).take (e + 1 - s))) with
          | .ok d => d
          | .error _ => defaultAnalysis user_input
      | _, _ => defaultAnalysis user_input

/-- The response kind `_handle_natural_language` produces. -/
inductive NLResponseKind where
  | offline
  | dynamic_content
  | explore_fallback
  | action_resolution
  | chat_narration
  deriving DecidableEq, Repr

/-- `RuntimeEngine._handle_natural_language`, reduced to the branch it
takes: offline echo without an LLM client; otherwise dispatch on the
analyzed intent — `EXPLORE` to dynamic content (the loader result is the
parameter `dynamic_content`) or the sub-location fallback, `ACTION` to
action resolution, anything else to the chat narration. -/
def handle_natural_language (user_input : String) (llm_configured : Bool)
    (llm_call : Except PyErr String)
    (json_loads : String → Except PyErr PyDict)
    (dynamic_content : Option PyDict) : NLResponseKind :=
  if !llm_configured then .offline
  else
    let analysis := analyze_intent user_input llm_call json_loads
    let intent := pyGetD analysis "intent" (.vstr "CHAT")
    if intent == .vstr "EXPLORE" then
      match dynamic_content with
      | some _ => .dynamic_content
      | none => .explore_fallback
    else if intent == .vstr "ACTION" then .action_resolution
    else .chat_narration

/-- Python `str.split()` (no separator) over the remaining characters,
carrying the (reversed) current token: maximal runs of non-whitespace;
leading, trailing and repeated whitespace produce no empty tokens. -/
def pySplitGo : List Char → List Char → List String
  | [], acc => if acc.isEmpty then [] else [String.mk acc.reverse]
  | c :: rest, acc =>
      if pyIsSpace c then
        if acc.isEmpty then pySplitGo rest []
        else String.mk acc.reverse :: pySplitGo rest []
      else pySplitGo rest (c :: acc)

/-- Python `user_input.split()`. -/
def pySplit (s : String) : List String := pySplitGo s.data []

/-- Where `_process_command` routes an input. -/
inductive CommandRoute where
  | plugin (cmd : String)
  | move
  | look
  | status
  | events
  | world
  | plugins_cmd
  | natural
  deriving DecidableEq, Repr

/-- `RuntimeEngine._process_command`, reduced to its routing decision.
Its first statement indexes `user_input.split()[0]`, which raises
`IndexError` when the token list is empty; afterwards it tries plugin
commands, then the slash-command prefixes in source order, then the
natural-language path. -/
def process_command_route (plugin_commands : List String)
    (user_input : String) : Except PyErr CommandRoute :=
  match pySplit user_input with
  | [] => .error .indexError
  | tok0 :: _ =>
      if tok0 ∈ plugin_commands then .ok (.plugin tok0)
      else if user_input.startsWith "/move" then .ok .move
      else if user_input.startsWith "/look" then .ok .look
      else if user_input.startsWith "/status" then .ok .status
      else if user_input.startsWith "/events" then .ok .events
      else if user_input.startsWith "/world" then .ok .world
      else if user_input.startsWith "/plugins" then .ok .plugins_cmd
      else .ok .natural

/-- The runtime state `step` mutates that the claims observe: the turn
counter and the conversation history held by the cognition store. -/
structure RuntimeState where
  turn_count : Nat := 0
  history : List (String × String) := []
  deriving DecidableEq, Repr

/-- `RuntimeEngine.step`: bump the turn counter, append the user
message, fire the turn-start hook (exception-isolated, state-invisible
here), consult the `before_action` hook (`hook_before_action` is its
first non-nil result), otherwise dispatch the command; a raised
exception propagates out of `step` carrying the state as already
mutated, so no assistant message is appended and no response returned.
On success the response is appended as the assistant message. -/
def step (rt : RuntimeState) (hook_before_action : Option String)
    (plugin_commands : List String) (respond : CommandRoute → String)
    (user_input : String) :
    Except (PyErr × RuntimeState) (String × RuntimeState) :=
  let rt1 : RuntimeState :=
    { rt with turn_count := rt.turn_count + 1,
              history := rt.history ++ [("user", user_input)] }
  let response? : Except PyErr String :=
    match hook_before_action with
    | some r => .ok r
    | none => (process_command_route plugin_commands user_input).map respond
  match response? with
  | .error e => .error (e, rt1)
  | .ok response =>
      .ok (response, { rt1 with history := rt1.history ++ [("assistant", response)] })

/-- `RuntimeEngine._handle_events_command`: format the event summary
(`get_event_summary` may raise) around the narration context. -/
def handle_events_command (all_events : List EventData)
    (narration_context : String) : Except PyErr String := do
  let summary ← EventSystem.get_event_summary all_events
  .ok ("📜 事件统计\n" ++ String.mk (List.replicate 40 '=') ++
       "\n总事件数: " ++ toString summary.total_events ++
       "\n最近事件:\n\n" ++ narration_context ++ "\n")

end Runtime

/-! ### Library lemmas about the dictionary embedding -/

@[simp]
theorem alistGet_nil {β : Type} (k : String) :
    alistGet ([] : List (String × β)) k = none := rfl

@[simp]
theorem alistGet_cons {β : Type} (p : String × β) (t : List (String × β))
    (k : String) :
    alistGet (p :: t) k = if p.fst == k then some p.snd else alistGet t k := by
  by_cases hp : p.fst == k
  · simp [alistGet, List.find?, hp]
  · simp [alistGet, List.find?, hp]

@[simp]
theorem alistGet_alistSet_self {β : Type} (l : List (String × β)) (k : String)
    (v : β) : alistGet (alistSet l k v) k = some v := by
  induction l with
  | nil => simp [alistSet]
  | cons p t ih =>
      by_cases hp : p.fst == k
      · simp [alistSet, hp]
      · simp [alistSet, hp, ih]

theorem alistGet_alistSet_ne {β : Type} (l : List (String × β)) (k k' : String)
    (v : β) (h : k' ≠ k) : alistGet (alistSet l k v) k' = alistGet l k' := by
  induction l with
  | nil => simp [alistSet, (by simpa using h.symm : ¬(k == k') = true)]
  | cons p t ih =>
      by_cases hp : p.fst == k
      · have hk : ¬(k == k') = true := by simpa using fun e => h e.symm
        have hp' : p.fst = k := by simpa using hp
        simp [alistSet, hp, hk, hp', hk]
      · simp [alistSet, hp, ih]

/-! ### Cache lemmas -/

namespace LazyLoader

theorem get_fst_eq {α : Type} (c : ContentCache α) (k : String) (now : Int) :
    (c.get k now).fst = (alistGet c.cache k).map
      (fun e => { e with last_accessed := now, access_count := e.access_count + 1 }) := by
  unfold ContentCache.get
  cases alistGet c.cache k <;> simp

theorem get_snd_get_content {α : Type} (c : ContentCache α) (k : String)
    (now : Int) (k' : String) :
    (alistGet ((c.get k now).snd).cache k').map (fun e => e.content) =
      (alistGet c.cache k').map (fun e => e.content) := by
  unfold ContentCache.get
  cases hk : alistGet c.cache k with
  | none => simp
  | some e =>
      by_cases h : k' = k
      · subst h
        simp [hk]
      · simp [alistGet_alistSet_ne _ _ _ _ h]

theorem should_generate_snd_rate_limiter {α : Type} (s : LazyLoadingStrategy α)
    (key : String) (context : LoadContext) (content_type : ContentType)
    (force : Bool) (now : Int) :
    (s.should_generate_content key context content_type force now).snd.rate_limiter
      = s.rate_limiter := by
  unfold LazyLoadingStrategy.should_generate_content
  dsimp only
  repeat' split
  all_goals rfl

theorem should_generate_snd_calls_blocked {α : Type} (s : LazyLoadingStrategy α)
    (key : String) (context : LoadContext) (content_type : ContentType)
    (force : Bool) (now : Int) :
    (s.should_generate_content key context content_type force now).snd.stats.calls_blocked
      = s.stats.calls_blocked := by
  unfold LazyLoadingStrategy.should_generate_content
  dsimp only
  repeat' split
  all_goals rfl

theorem should_generate_snd_cache_content {α : Type} (s : LazyLoadingStrategy α)
    (key : String) (context : LoadContext) (content_type : ContentType)
    (force : Bool) (now : Int) (k' : String) :
    (alistGet (s.should_generate_content key context content_type force now).snd.cache.cache k').map
        (fun e => e.content)
      = (alistGet s.cache.cache k').map (fun e => e.content) := by
  unfold LazyLoadingStrategy.should_generate_content
  dsimp only
  repeat' split
  all_goals first
    | rfl
    | exact get_snd_get_content s.cache key now k'

/-! ### Claim C1 -/

/-- A concrete load context used by the cache counterexamples. -/
def ctx0 : LoadContext :=
  { player_id := "p1", location := "tavern", crisis_level := 0,
    total_minutes := 480, flag_names := [] }

/-- A fresh, context-valid cache entry stored under `"loc:tavern"`. -/
def hitEntry : CacheEntry String :=
  { key := "loc:tavern", content_type := .narrative, content := "cached text",
    context_hash := ctx0.compute_hash, created_at := 0, last_accessed := 0,
    access_count := 0, ttl_seconds := 3600, tags := [] }

/-- A strategy whose cache holds `hitEntry` (a guaranteed cache hit at
time 10 for context `ctx0`). -/
def hitStrategy : LazyLoadingStrategy String :=
  { config := {},
    cache := { config := {}, cache := [("loc:tavern", hitEntry)],
               type_index := [(ContentType.narrative, ["loc:tavern"])] },
    rate_limiter := {}, stats := {} }

/-- C1, counterexample: on a fresh, context-valid entry (a cache hit)
`should_generate_content` returns the pair `(false, CACHE_MISS)` — the
very same `GenerationReason` value it returns on a cache miss — and not
a hit-specific `CACHE_HIT` reason, which does not exist in the
`GenerationReason` enum. -/
theorem C1_counterexample :
    (hitStrategy.should_generate_content "loc:tavern" ctx0
        ContentType.narrative false 10).fst
      = (false, GenerationReason.cache_miss) ∧
    (({ config := {}, cache := ContentCache.mk0 String {},
        rate_limiter := {}, stats := {} } :
          LazyLoadingStrategy String).should_generate_content "loc:tavern" ctx0
        ContentType.narrative false 10).fst
      = (true, GenerationReason.cache_miss) := by
  constructor
  · unfold LazyLoadingStrategy.should_generate_content
    dsimp only
    simp [ContentCache.get, hitStrategy, hitEntry, CacheEntry.is_expired,
      CacheEntry.is_context_valid]
  · unfold LazyLoadingStrategy.should_generate_content
    dsimp only
    simp [ContentCache.get, ContentCache.mk0]

/-- C1 (amended): the decision cascade of `should_generate_content` —
`force` gives `(true, FORCE_REFRESH)`; a missing entry gives
`(true, CACHE_MISS)`; an expired entry gives `(true, STALE_CACHE)`;
context-aware caching with a differing stored context hash gives
`(true, CONTEXT_CHANGE)`; every remaining case (the cache hit) gives
`false` paired with the reason `CACHE_MISS` (the enum has no `CACHE_HIT`
member). -/
theorem C1_should_generate_decision {α : Type} (s : LazyLoadingStrategy α)
    (key : String) (context : LoadContext) (content_type : ContentType)
    (force : Bool) (now : Int) :
    (s.should_generate_content key context content_type force now).fst =
      (if force = true then (true, GenerationReason.force_refresh)
       else
         match alistGet s.cache.cache key with
         | none => (true, GenerationReason.cache_miss)
         | some entry =>
             if entry.is_expired now = true then (true, GenerationReason.stale_cache)
             else if s.config.context_aware_caching = true ∧
                     entry.context_hash ≠ context.compute_hash then
               (true, GenerationReason.context_change)
             else (false, GenerationReason.cache_miss)) := by
  unfold LazyLoadingStrategy.should_generate_content
  dsimp only
  cases force
  · cases h : alistGet s.cache.cache key with
    | none => simp [ContentCache.get, h]
    | some entry =>
        simp only [ContentCache.get, h]
        by_cases hexp : entry.ttl_seconds < now - entry.created_at
        · simp [CacheEntry.is_expired, hexp]
        · by_cases hca : s.config.context_aware_caching = true
          · by_cases hh : entry.context_hash = context.compute_hash
            · simp [CacheEntry.is_expired, CacheEntry.is_context_valid,
                hexp, hca, hh]
            · simp [CacheEntry.is_expired, CacheEntry.is_context_valid,
                hexp, hca, hh]
          · simp [CacheEntry.is_expired, CacheEntry.is_context_valid,
              hexp, hca]
  · simp

/-! ### Claim C2 -/

/-- The cache of the C2 counterexample: one `set` with TTL 1 s and
generation-context hash `"ctxA"` into an empty default cache at time 0
(context-aware caching is on by default). -/
def c2cache : ContentCache String :=
  (ContentCache.mk0 String {}).set "k" "v" ContentType.custom "ctxA" (some 1) none 0

/-- C2, counterexample: at read time 100 the entry is expired and its
stored context hash `"ctxA"` differs from the current hash `"ctxB"`,
yet `get` still returns the entry with payload `"v"` — refuting the
claimed equivalence (`get` returns `v` iff fresh and context-valid). -/
theorem C2_counterexample :
    ¬ ((((c2cache.get "k" 100).fst).map (fun e => e.content) = some "v") ↔
        ((((c2cache.get "k" 100).fst).map (fun e => e.is_expired 100) = some false) ∧
         (c2cache.config.context_aware_caching = false ∨
          ((c2cache.get "k" 100).fst).map (fun e => e.context_hash) = some "ctxB"))) := by
  decide

/-- C2 (amended): after `set(k, v, ctx)` with no intervening operations
on the cache, `get(k)` returns the stored entry with payload `v`
unconditionally, at every read time — `ContentCache.get` checks neither
the TTL nor the context hash. -/
theorem C2_get_after_set {α : Type} (c : ContentCache α) (k : String) (v : α)
    (content_type : ContentType) (context_hash : String)
    (ttl_seconds : Option Int) (tags : Option (List String)) (now now' : Int) :
    (((c.set k v content_type context_hash ttl_seconds tags now).get k now').fst).map
        (fun e => e.content) = some v := by
  rw [get_fst_eq]
  unfold ContentCache.set
  dsimp only
  simp

/-! ### Claim C3 -/

theorem blocked_branch_eq {α : Type} (s : LazyLoadingStrategy α) (key : String)
    (context : LoadContext) (content_type : ContentType) (generator : Unit → α)
    (force : Bool) (now : Int)
    (hneed : (s.should_generate_content key context content_type force now).fst.fst = true)
    (hrefuse : (s.rate_limiter.can_call now).fst = false) :
    s.get_cached_or_generate key context content_type generator force now =
      (let s1 := (s.should_generate_content key context content_type force now).snd
       let cc := s.rate_limiter.can_call now
       let s2 : LazyLoadingStrategy α :=
         { s1 with rate_limiter := cc.snd,
                   stats := { s1.stats with calls_blocked := s1.stats.calls_blocked + 1 } }
       let r := s2.cache.get key now
       match r.fst with
       | some cached => ((some cached.content, false), { s2 with cache := r.snd })
       | none => ((none, false), { s2 with cache := r.snd })) := by
  unfold LazyLoadingStrategy.get_cached_or_generate
  dsimp only
  rw [should_generate_snd_rate_limiter, hneed, hrefuse]
  simp only [Bool.not_false, if_true]

/-- C3: whenever generation is needed (`should_generate_content` says
true) but the rate limiter refuses, `get_cached_or_generate` returns the
payload cached under the key — expired or not — with the
not-newly-generated flag (or `none` when no entry exists),
`calls_blocked` is incremented by one, and the generator is never
invoked (the result does not depend on it). -/
theorem C3_rate_limited_fallback {α : Type} (s : LazyLoadingStrategy α)
    (key : String) (context : LoadContext) (content_type : ContentType)
    (generator : Unit → α) (force : Bool) (now : Int)
    (hneed : (s.should_generate_content key context content_type force now).fst.fst = true)
    (hrefuse : (s.rate_limiter.can_call now).fst = false) :
    (s.get_cached_or_generate key context content_type generator force now).fst =
      ((alistGet s.cache.cache key).map (fun e => e.content), false) ∧
    (s.get_cached_or_generate key context content_type generator force now).snd.stats.calls_blocked
      = s.stats.calls_blocked + 1 ∧
    ∀ generator2 : Unit → α,
      s.get_cached_or_generate key context content_type generator2 force now =
        s.get_cached_or_generate key context content_type generator force now := by
  have hb := blocked_branch_eq s key context content_type generator force now hneed hrefuse
  have hcc := should_generate_snd_cache_content s key context content_type force now key
  have hcb := should_generate_snd_calls_blocked s key context content_type force now
  refine ⟨?_, ?_, ?_⟩
  · rw [hb]
    dsimp only
    rw [get_fst_eq]
    cases hk : alistGet
        (s.should_generate_content key context content_type force now).snd.cache.cache key with
    | none =>
        rw [hk] at hcc
        simp [← hcc]
    | some e1 =>
        rw [hk] at hcc
        simp [← hcc]
  · rw [hb]
    dsimp only
    split <;> (dsimp only; rw [hcb])
  · intro generator2
    rw [blocked_branch_eq s key context content_type generator2 force now hneed hrefuse, hb]

/-- An already-expired entry cached under `"k3"`. -/
def c3entry : CacheEntry String :=
  { key := "k3", content_type := .npc, content := "old npc", context_hash := "h",
    created_at := 0, last_accessed := 0, access_count := 0, ttl_seconds := 1,
    tags := [] }

/-- A strategy whose one-call-per-minute rate limiter is saturated at
time 60 and whose cache holds the expired `c3entry`. -/
def c3strategy : LazyLoadingStrategy String :=
  { config := { max_calls_per_minute := 1 },
    cache := { config := { max_calls_per_minute := 1 },
               cache := [("k3", c3entry)], type_index := [] },
    rate_limiter := { max_calls_per_minute := 1, min_interval_ms := 100,
                      call_times := [50] },
    stats := {} }

/-- C3, witness: concrete run of the rate-limited path — generation is
needed (the entry is stale), the limiter refuses, and the call returns
the expired payload not-newly-generated with `calls_blocked` going
0 → 1. -/
theorem C3_witness :
    (c3strategy.should_generate_content "k3" ctx0 ContentType.npc false 60).fst.fst = true ∧
    (c3strategy.rate_limiter.can_call 60).fst = false ∧
    (c3strategy.get_cached_or_generate "k3" ctx0 ContentType.npc
        (fun _ => "fresh") false 60).fst = (some "old npc", false) ∧
    (c3strategy.get_cached_or_generate "k3" ctx0 ContentType.npc
        (fun _ => "fresh") false 60).snd.stats.calls_blocked = 1 := by
  have h1 : (c3strategy.should_generate_content "k3" ctx0 ContentType.npc false 60).fst.fst
      = true := by decide
  have h2 : (c3strategy.rate_limiter.can_call 60).fst = false := by decide
  have main := C3_rate_limited_fallback c3strategy "k3" ctx0 ContentType.npc
    (fun _ => "fresh") false 60 h1 h2
  exact ⟨h1, h2, main.1.trans (by decide), main.2.1.trans (by decide)⟩

end LazyLoader

/-! ### Claim C4 -/

namespace MapEngine

theorem travel_field_inj (b b' : String)
    (h : "Travel:" ++ b = "Travel:" ++ b') : b = b' := by
  obtain ⟨bd⟩ := b
  obtain ⟨bd'⟩ := b'
  have hd : ("Travel:" ++ String.mk bd).data = ("Travel:" ++ String.mk bd').data := by
    rw [h]
  simp only [String.data_append] at hd
  exact congrArg String.mk (List.append_cancel_left hd)

theorem hget_hset_self (st : MapStore) (n f : String) (p : EdgePayload) :
    hget (hset st n f p) n f = some p := by
  unfold hget hset
  simp

theorem hget_hset_other (st : MapStore) (n f : String) (p : EdgePayload)
    (m g : String) (h : ¬(m = n ∧ g = f)) :
    hget (hset st n f p) m g = hget st m g := by
  unfold hget hset
  by_cases hm : m = n
  · subst hm
    have hg : g ≠ f := fun e => h ⟨rfl, e⟩
    simp only [alistGet_alistSet_self]
    rw [alistGet_alistSet_ne _ _ _ _ hg]
    cases he : alistGet st.edges m <;> simp [he, Option.getD]
  · rw [alistGet_alistSet_ne _ _ _ _ hm]

theorem connect_preserves_paired (st : MapStore) (a b : String)
    (r : PyDict) (h : EdgesPaired st) :
    EdgesPaired (connect_nodes_with_concept st a b r).snd := by
  intro x y p hp
  unfold connect_nodes_with_concept at hp ⊢
  dsimp only at hp ⊢
  by_cases hA : x = b ∧ ("Travel:" ++ y) = ("Travel:" ++ a)
  · obtain ⟨hx, hf⟩ := hA
    have hy : y = a := travel_field_inj _ _ hf
    rw [hx, hy] at hp
    rw [hget_hset_self] at hp
    injection hp with hp
    subst hp
    rw [hx, hy]
    refine ⟨rfl, rfl, ?_⟩
    by_cases hab : a = b
    · rw [← hab]
      exact ⟨{ target_id := a, edge_type := "Travel", route_info := r },
        hget_hset_self _ _ _ _, rfl, rfl, rfl⟩
    · refine ⟨{ target_id := b, edge_type := "Travel", route_info := r },
        ?_, rfl, rfl, rfl⟩
      rw [hget_hset_other]
      · exact hget_hset_self _ _ _ _
      · rintro ⟨he, _⟩
        exact hab he
  · by_cases hB : x = a ∧ ("Travel:" ++ y) = ("Travel:" ++ b)
    · obtain ⟨hx, hf⟩ := hB
      have hy : y = b := travel_field_inj _ _ hf
      rw [hx, hy] at hp
      rw [hget_hset_other, hget_hset_self] at hp
      · injection hp with hp
        subst hp
        rw [hx, hy]
        exact ⟨rfl, rfl, { target_id := a, edge_type := "Travel", route_info := r },
          hget_hset_self _ _ _ _, rfl, rfl, rfl⟩
      · rintro ⟨he1, he2⟩
        exact hA ⟨hx.trans he1, by rw [hy]; exact he2⟩
    · rw [hget_hset_other _ _ _ _ _ _ hA, hget_hset_other _ _ _ _ _ _ hB] at hp
      obtain ⟨hpt, hpe, q, hq, hqt, hqe, hqr⟩ := h x y p hp
      refine ⟨hpt, hpe, q, ?_, hqt, hqe, hqr⟩
      rw [hget_hset_other, hget_hset_other]
      · exact hq
      · rintro ⟨hy, hfld⟩
        exact hA ⟨travel_field_inj _ _ hfld, by rw [hy]⟩
      · rintro ⟨hy, hfld⟩
        exact hB ⟨travel_field_inj _ _ hfld, by rw [hy]⟩

theorem foldl_paired {β : Type} (f : MapStore → β → MapStore) (l : List β)
    (hf : ∀ st x, EdgesPaired st → EdgesPaired (f st x)) :
    ∀ st, EdgesPaired st → EdgesPaired (l.foldl f st) := by
  induction l with
  | nil => intro st h; exact h
  | cons x t ih => intro st h; exact ih _ (hf st x h)

theorem hget_congr (st st' : MapStore) (he : st'.edges = st.edges)
    (m g : String) : hget st' m g = hget st m g := by
  unfold hget
  rw [he]

theorem paired_of_edges_eq (st st' : MapStore) (he : st'.edges = st.edges)
    (h : EdgesPaired st) : EdgesPaired st' := by
  intro a b p hp
  rw [hget_congr st st' he] at hp
  obtain ⟨h1, h2, q, hq, h3⟩ := h a b p hp
  refine ⟨h1, h2, q, ?_, h3⟩
  rw [hget_congr st st' he]
  exact hq

/-- C4: starting from a store with no half-written edges (every present
`Travel:<b>` field on `a` already has its identically-routed mirror
`Travel:<a>` on `b`), `ingest_l2_graph` preserves that pairing: after it
runs, every connected neighbor pair `(a, b)` carries `Travel:b` on `a`
and `Travel:a` on `b`, the two payloads embedding the identical
route-concept record. -/
theorem C4_ingest_keeps_edges_paired (st : MapStore) (regions : List PyDict)
    (routeGen : MapStore → String → String → PyDict)
    (h : EdgesPaired st) :
    EdgesPaired (ingest_l2_graph st regions routeGen) := by
  unfold ingest_l2_graph
  apply foldl_paired
  · intro acc r hacc
    apply foldl_paired
    · intro acc2 to_id hacc2
      dsimp only
      split
      · exact hacc2
      · exact connect_preserves_paired _ _ _ _ hacc2
    · exact hacc
  · apply foldl_paired _ _ _ st h
    intro acc r hacc
    cases hr : alistGet r "region_id" with
    | none => exact hacc
    | some rid =>
        dsimp only
        split
        · exact paired_of_edges_eq _ _ rfl hacc
        · exact hacc

/-- The two-region map of the C4 witness (`a ↔ b`). -/
def c4regions : List PyDict :=
  [[("region_id", .vstr "a"), ("name", .vstr "Region A"),
    ("neighbors", .vstrlist ["b"])],
   [("region_id", .vstr "b"), ("name", .vstr "Region B"),
    ("neighbors", .vstrlist ["a"])]]

/-- A stub route generator (the claim holds for every generator). -/
def c4routeGen : MapStore → String → String → PyDict :=
  fun _ _ _ => [("route_name", .vstr "Muddy Path")]

/-- C4, witness: ingesting the two-region graph into the empty store
(trivially free of half-written edges) yields a fully paired edge store,
and concretely both `Travel:b` on `a` and `Travel:a` on `b` exist with
the same embedded route concept. -/
theorem C4_witness :
    EdgesPaired (ingest_l2_graph MapStore.empty c4regions c4routeGen) ∧
    (hget (ingest_l2_graph MapStore.empty c4regions c4routeGen) "a" "Travel:b").map
        (fun p => p.route_info)
      = some [("route_name", .vstr "Muddy Path")] ∧
    (hget (ingest_l2_graph MapStore.empty c4regions c4routeGen) "b" "Travel:a").map
        (fun p => p.route_info)
      = some [("route_name", .vstr "Muddy Path")] := by
  refine ⟨C4_ingest_keeps_edges_paired MapStore.empty c4regions c4routeGen ?_, ?_, ?_⟩
  · intro a b p hp
    simp [hget, MapStore.empty] at hp
  · decide
  · decide

/-! ### Claim C5 -/

/-- A store holding one parent node `tavern`. -/
def c5parentStore : MapStore :=
  (save_node MapStore.empty "tavern"
    [("name", .vstr "The Tavern"), ("desc", .vstr "A smoky tavern"),
     ("geo_feature", .vstr "wooden hall")] "L2").snd

/-- An LLM response supplying the out-of-range integer risk 99. -/
def c5llmInfo : PyDict :=
  [("name", .vstr "Dark Cellar"), ("desc", .vstr "A deep cellar"),
   ("geo_feature", .vstr "stone vault"), ("risk_level", .vint 99),
   ("connection_path_name", .vstr "Rusty Ladder")]

/-- C5, counterexample: a successful `create_dynamic_sub_location` call
whose LLM response says `risk_level = 99` persists the node with
`risk_level = 99`, which lies outside `[1, 5]` — the source never clamps
the converted integer. -/
theorem C5_counterexample :
    ((create_dynamic_sub_location c5parentStore "tavern" "cellar" true
        (some c5llmInfo) "node123").fst = some "node123") ∧
    ((get_node (create_dynamic_sub_location c5parentStore "tavern" "cellar" true
        (some c5llmInfo) "node123").snd "node123").bind
          (fun d => alistGet d "risk_level") = some (.vint 99)) ∧
    ¬ (1 ≤ (99 : Int) ∧ (99 : Int) ≤ 5) := by
  decide

/-- C5 (amended): every successful `create_dynamic_sub_location` call
persists the node with node-type `L3_Dynamic` and the `parent_id` and
`keyword` attributes, and stores `risk_level = int(raw)` exactly as the
LLM supplied it when convertible (fallback 1 when conversion raises) —
without clamping it into `[1, 5]`. -/
theorem C5_node_attributes_risk_unclamped (st : MapStore)
    (parent_id keyword : String) (info : PyDict) (new_node_id : String)
    (hparent : (get_node st parent_id).isSome = true) :
    ((create_dynamic_sub_location st parent_id keyword true (some info)
        new_node_id).fst = some new_node_id) ∧
    ∃ d, get_node (create_dynamic_sub_location st parent_id keyword true
            (some info) new_node_id).snd new_node_id = some d ∧
      alistGet d "type" = some (.vstr "L3_Dynamic") ∧
      alistGet d "parent_id" = some (.vstr parent_id) ∧
      alistGet d "keyword" = some (.vstr keyword) ∧
      alistGet d "risk_level"
        = some (.vint (pyIntOr (pyGetD info "risk_level" (.vint 1)) 1)) := by
  obtain ⟨parent, hp⟩ := Option.isSome_iff_exists.mp hparent
  unfold create_dynamic_sub_location save_node connect_nodes_with_concept
  rw [hp]
  dsimp only
  unfold get_node hset
  dsimp only
  exact ⟨rfl, _, alistGet_alistSet_self _ _ _, rfl, rfl, rfl, rfl⟩

/-- C5, witness: the amended statement instantiated on the concrete
tavern store and the risk-99 LLM response. -/
theorem C5_witness :
    ((get_node c5parentStore "tavern").isSome = true) ∧
    ((create_dynamic_sub_location c5parentStore "tavern" "cellar" true
        (some c5llmInfo) "node123").fst = some "node123") ∧
    ∃ d, get_node (create_dynamic_sub_location c5parentStore "tavern" "cellar" true
            (some c5llmInfo) "node123").snd "node123" = some d ∧
      alistGet d "type" = some (.vstr "L3_Dynamic") ∧
      alistGet d "parent_id" = some (.vstr "tavern") ∧
      alistGet d "keyword" = some (.vstr "cellar") ∧
      alistGet d "risk_level"
        = some (.vint (pyIntOr (pyGetD c5llmInfo "risk_level" (.vint 1)) 1)) := by
  have hparent : (get_node c5parentStore "tavern").isSome = true := by decide
  exact ⟨hparent,
    C5_node_attributes_risk_unclamped c5parentStore "tavern" "cellar" c5llmInfo
      "node123" hparent⟩

end MapEngine

/-! ### Claim C6 -/

namespace WorldState

theorem statusOf_congr (w w' : WorldStateM) (hq : w'.quests = w.quests)
    (q : String) : statusOf w' q = statusOf w q := by
  unfold statusOf
  rw [hq]

theorem set_crisis_level_quests (w : WorldStateM) (l : Int) :
    (set_crisis_level w l).quests = w.quests := by
  unfold set_crisis_level
  split <;> rfl

theorem discover_region_quests (w : WorldStateM) (rid : String) :
    (discover_region w rid).quests = w.quests := by
  unfold discover_region
  split <;> rfl

theorem statusOf_after_set (w : WorldStateM) (qid : String) (q' : QuestState)
    (q : String) :
    statusOf { w with quests := alistSet w.quests qid q' } q =
      if q = qid then some q'.status else statusOf w q := by
  unfold statusOf
  by_cases hqq : q = qid
  · subst hqq
    simp
  · simp [hqq, alistGet_alistSet_ne _ _ _ _ hqq]

theorem accept_step (w : WorldStateM) (qid : String) (now : Int) (q : String) :
    Relation.ReflTransGen OptArrow (statusOf w q)
      (statusOf (accept_quest w qid now).snd q) := by
  unfold accept_quest
  cases hq : alistGet w.quests qid with
  | none => exact .refl
  | some quest =>
      by_cases hs : quest.status == "available"
      · simp only [hs, if_true]
        rw [statusOf_after_set]
        by_cases hqq : q = qid
        · have h1 : statusOf w q = some "available" := by
            subst hqq
            unfold statusOf
            rw [hq]
            simpa using hs
          rw [if_pos hqq, h1]
          exact Relation.ReflTransGen.single
            ⟨"available", "active", rfl, rfl, Or.inl ⟨rfl, rfl⟩⟩
        · rw [if_neg hqq]
      · simp only [Bool.not_eq_true] at hs
        simp only [hs, Bool.false_eq_true, if_false]
        exact .refl

theorem complete_step (w : WorldStateM) (qid : String) (now : Int) (q : String) :
    Relation.ReflTransGen OptArrow (statusOf w q)
      (statusOf (complete_quest w qid now).snd q) := by
  unfold complete_quest
  cases hq : alistGet w.quests qid with
  | none => exact .refl
  | some quest =>
      by_cases hs : quest.status == "active"
      · simp only [hs, if_true]
        rw [statusOf_after_set]
        by_cases hqq : q = qid
        · have h1 : statusOf w q = some "active" := by
            subst hqq
            unfold statusOf
            rw [hq]
            simpa using hs
          rw [if_pos hqq, h1]
          exact Relation.ReflTransGen.single
            ⟨"active", "completed", rfl, rfl, Or.inr ⟨rfl, Or.inl rfl⟩⟩
        · rw [if_neg hqq]
      · simp only [Bool.not_eq_true] at hs
        simp only [hs, Bool.false_eq_true, if_false]
        exact .refl

theorem fail_step (w : WorldStateM) (qid : String) (q : String) :
    Relation.ReflTransGen OptArrow (statusOf w q)
      (statusOf (fail_quest w qid).snd q) := by
  unfold fail_quest
  cases hq : alistGet w.quests qid with
  | none => exact .refl
  | some quest =>
      by_cases hs : quest.status == "active"
      · simp only [hs, if_true]
        rw [statusOf_after_set]
        by_cases hqq : q = qid
        · have h1 : statusOf w q = some "active" := by
            subst hqq
            unfold statusOf
            rw [hq]
            simpa using hs
          rw [if_pos hqq, h1]
          exact Relation.ReflTransGen.single
            ⟨"active", "failed", rfl, rfl, Or.inr ⟨rfl, Or.inr (Or.inl rfl)⟩⟩
        · rw [if_neg hqq]
      · simp only [Bool.not_eq_true] at hs
        simp only [hs, Bool.false_eq_true, if_false]
        exact .refl

theorem handle_event_step (w : WorldStateM) (e : EventData) (now : Int)
    (q : String) :
    Relation.ReflTransGen OptArrow (statusOf w q)
      (statusOf (handle_event w e now) q) := by
  unfold handle_event
  cases e.event_type <;> dsimp only
  case discovery =>
      cases alistGet e.data "target" with
      | none => exact .refl
      | some v =>
          cases v <;> dsimp only
          case vstr s =>
            split
            · rw [statusOf_congr _ _ (discover_region_quests w s)]
            · exact .refl
          all_goals exact .refl
  case quest_accepted =>
      cases questKeyOf e.data with
      | none => exact .refl
      | some qid => exact accept_step w qid now q
  case quest_completed =>
      split
      · rw [statusOf_congr _ _ (set_crisis_level_quests _ _)]
        cases questKeyOf e.data with
        | none => exact .refl
        | some qid => exact complete_step w qid now q
      · cases questKeyOf e.data with
        | none => exact .refl
        | some qid => exact complete_step w qid now q
  case world_event =>
      rw [statusOf_congr _ _ (set_crisis_level_quests _ _)]
  case time_pass => exact .refl
  all_goals exact .refl

theorem applyQuestOp_step (w : WorldStateM) (op : QuestOp) (now : Int)
    (q : String) :
    Relation.ReflTransGen OptArrow (statusOf w q)
      (statusOf (applyQuestOp w op now) q) := by
  cases op with
  | accept qid => exact accept_step w qid now q
  | complete qid => exact complete_step w qid now q
  | fail qid => exact fail_step w qid q
  | event e => exact handle_event_step w e now q

/-- C6: the quest registry only ever moves along
`available → active → completed / failed / abandoned`.  The three direct
calls succeed exactly on the stated precondition (`accept_quest` on an
`"available"` quest, `complete_quest` and `fail_quest` on an `"active"`
one) and leave the world state untouched when they return false; and
under every sequence of accepts, completes, fails and handled
`QUEST_ACCEPTED`/`QUEST_COMPLETED` (or other) events, each quest's
status follows the reflexive-transitive closure of the legal arrows. -/
theorem C6_quest_state_machine :
    (∀ (w : WorldStateM) (quest_id : String) (now : Int),
      ((accept_quest w quest_id now).fst = true ↔
        statusOf w quest_id = some "available") ∧
      ((accept_quest w quest_id now).fst = false →
        (accept_quest w quest_id now).snd = w)) ∧
    (∀ (w : WorldStateM) (quest_id : String) (now : Int),
      ((complete_quest w quest_id now).fst = true ↔
        statusOf w quest_id = some "active") ∧
      ((complete_quest w quest_id now).fst = false →
        (complete_quest w quest_id now).snd = w)) ∧
    (∀ (w : WorldStateM) (quest_id : String),
      ((fail_quest w quest_id).fst = true ↔
        statusOf w quest_id = some "active") ∧
      ((fail_quest w quest_id).fst = false →
        (fail_quest w quest_id).snd = w)) ∧
    (∀ (w : WorldStateM) (ops : List (QuestOp × Int)) (quest_id : String),
      Relation.ReflTransGen OptArrow (statusOf w quest_id)
        (statusOf (applyQuestOps w ops) quest_id)) := by
  refine ⟨?_, ?_, ?_, ?_⟩
  · intro w quest_id now
    unfold accept_quest statusOf
    cases hq : alistGet w.quests quest_id with
    | none => simp
    | some quest =>
        by_cases hs : quest.status == "available" <;> simp [hs] <;>
          simpa using hs
  · intro w quest_id now
    unfold complete_quest statusOf
    cases hq : alistGet w.quests quest_id with
    | none => simp
    | some quest =>
        by_cases hs : quest.status == "active" <;> simp [hs] <;>
          simpa using hs
  · intro w quest_id
    unfold fail_quest statusOf
    cases hq : alistGet w.quests quest_id with
    | none => simp
    | some quest =>
        by_cases hs : quest.status == "active" <;> simp [hs] <;>
          simpa using hs
  · intro w ops quest_id
    induction ops generalizing w with
    | nil => exact .refl
    | cons p rest ih =>
        exact Relation.ReflTransGen.trans
          (applyQuestOp_step w p.fst p.snd quest_id) (ih _)

/-- A world holding one available quest `q1`. -/
def c6world : WorldStateM :=
  register_quest { quests := [], crisis_level := 2, regions := [], total_minutes := 480 }
    "q1" "First quest" "Do the thing"

/-- The handled completion event of the C6 witness. -/
def c6event : EventData :=
  { event_type := .quest_completed, event_id := "e1", timestamp := 6,
    player_id := "p1", session_id := "s1", location := "tavern",
    data := [("quest_id", .vstr "q1")] }

/-- The call sequence of the C6 witness: a direct accept, then the
completion arriving as a handled `QUEST_COMPLETED` event. -/
def c6ops : List (QuestOp × Int) :=
  [(QuestOp.accept "q1", 5), (QuestOp.event c6event, 6)]

/-- C6, witness: the concrete run walks
`available → active → completed`, and its chain instantiates the
machine theorem. -/
theorem C6_witness :
    Relation.ReflTransGen OptArrow (statusOf c6world "q1")
      (statusOf (applyQuestOps c6world c6ops) "q1") ∧
    statusOf (applyQuestOps c6world c6ops) "q1" = some "completed" := by
  constructor
  · exact C6_quest_state_machine.2.2.2 c6world c6ops "q1"
  · decide

end WorldState

/-! ### Claim C7 -/

namespace Runtime

/-- C7: failures inside intent classification never fail the turn.  If
the LLM call raises, or its (fence-stripped, trimmed) response holds no
extractable JSON object — no opening or no closing brace — then
`_analyze_intent` returns the default `CHAT` analysis whose keyword is
the raw user input, and `_handle_natural_language` proceeds to the chat
narration response. -/
theorem C7_intent_errors_default_to_chat :
    (∀ (user_input : String) (err : PyErr)
        (json_loads : String → Except PyErr PyDict) (dc : Option PyDict),
      analyze_intent user_input (.error err) json_loads
        = defaultAnalysis user_input ∧
      handle_natural_language user_input true (.error err) json_loads dc
        = NLResponseKind.chat_narration) ∧
    (∀ (user_input content : String)
        (json_loads : String → Except PyErr PyDict) (dc : Option PyDict),
      (pyFind (pyStrip (stripFences content.data)) '{' = none ∨
       pyRFind (pyStrip (stripFences content.data)) '}' = none) →
      analyze_intent user_input (.ok content) json_loads
        = defaultAnalysis user_input ∧
      handle_natural_language user_input true (.ok content) json_loads dc
        = NLResponseKind.chat_narration) := by
  constructor
  · intro user_input err json_loads dc
    exact ⟨rfl, rfl⟩
  · intro user_input content json_loads dc h
    have hd : analyze_intent user_input (.ok content) json_loads
        = defaultAnalysis user_input := by
      unfold analyze_intent
      dsimp only
      rcases h with h | h
      · rw [h]
      · rw [h]
        cases pyFind (pyStrip (stripFences content.data)) '{' <;> rfl
    refine ⟨hd, ?_⟩
    unfold handle_natural_language
    rw [hd]
    rfl

/-- C7, witness: a raising LLM call goes to chat narration carrying the
raw input; so does a brace-free LLM response. -/
theorem C7_witness :
    (analyze_intent "look around" (.error .valueError)
        (fun _ => .error .valueError) = defaultAnalysis "look around") ∧
    handle_natural_language "look around" true (.error .valueError)
        (fun _ => .error .valueError) none = NLResponseKind.chat_narration ∧
    (analyze_intent "hello" (.ok "plain narrative answer")
        (fun _ => .error .valueError) = defaultAnalysis "hello") ∧
    handle_natural_language "hello" true (.ok "plain narrative answer")
        (fun _ => .error .valueError) none = NLResponseKind.chat_narration := by
  have h1 := C7_intent_errors_default_to_chat.1 "look around" .valueError
    (fun _ => .error .valueError) none
  have h2 := C7_intent_errors_default_to_chat.2 "hello" "plain narrative answer"
    (fun _ => .error .valueError) none (Or.inl (by decide))
  exact ⟨h1.1, h1.2, h2.1, h2.2⟩

end Runtime

/-! ### Claim C8 -/

namespace Loader

/-- The loadable content of the C8 fixtures: non-repeatable, condition
`ALWAYS`. -/
def c8content : LoadableContent :=
  { content_id := "c1", content_type := .lore, name := "Old legend",
    description := "a story", condition := { trigger_type := .always },
    repeatable := false }

/-- A loader holding just `c8content`. -/
def c8loader : ContextLoader :=
  register_content { session_id := "s", loadable_content := [] } c8content

/-- A load context with nothing loaded yet. -/
def c8ctx : LoadContextC :=
  { player_id := "p", current_location := "tavern", player_state := [],
    events := [], nodes := [], loaded_content := [] }

/-- C8, counterexample: `load_content` on the registered non-repeatable
content returns true, and calling it a second time in the same session
(same loader and context coming out of the first call) returns true
again — not false: `load_content` never consults the loaded mark.  The
already-loaded filter sits only in `get_loadable_content`, which offers
the content before the first load and omits it afterwards. -/
theorem C8_counterexample :
    ((load_content c8loader "c1" c8ctx).fst = true) ∧
    ((load_content (load_content c8loader "c1" c8ctx).snd.fst "c1"
        (load_content c8loader "c1" c8ctx).snd.snd).fst = true) ∧
    ((get_loadable_content c8loader c8ctx none).map (fun c => c.content_id)
      = ["c1"]) ∧
    ((get_loadable_content (load_content c8loader "c1" c8ctx).snd.fst
        (load_content c8loader "c1" c8ctx).snd.snd none).map
          (fun c => c.content_id) = []) := by
  exact ⟨rfl, rfl, rfl, rfl⟩

theorem check_condition_loaded_irrel (cond : LoadCondition) (ctx : LoadContextC)
    (l : List String) :
    check_condition cond { ctx with loaded_content := l } =
      check_condition cond ctx := rfl

theorem check_condition_mark (cond : LoadCondition) (ctx : LoadContextC)
    (cid : String) :
    check_condition cond (ctx.mark_content_loaded cid) =
      check_condition cond ctx := by
  unfold LoadContextC.mark_content_loaded
  split <;> rfl

/-- C8 (amended): for a registered content item whose condition holds,
the first `load_content` returns true — and so does every repeated
`load_content` call on the resulting loader and context: the method
checks neither `repeatable` nor the loaded mark, so a second load within
the same session also returns true.  What the first load does change is
the candidate filter: the context now marks the id loaded, and
`get_loadable_content`'s filter step drops any non-repeatable entry
under that id. -/
theorem C8_second_load_returns_true (cl : ContextLoader) (ctx : LoadContextC)
    (cid : String) (content : LoadableContent)
    (hreg : alistGet cl.loadable_content cid = some content)
    (hcond : check_condition content.condition ctx = true) :
    ((load_content cl cid ctx).fst = true) ∧
    ((load_content (load_content cl cid ctx).snd.fst cid
        (load_content cl cid ctx).snd.snd).fst = true) ∧
    ((load_content cl cid ctx).snd.snd).is_content_loaded cid = true ∧
    (∀ (content_type : Option LContentType) (acc : List LoadableContent)
        (c : LoadableContent), c.repeatable = false →
      candidateStep content_type ((load_content cl cid ctx).snd.snd) acc (cid, c)
        = acc) := by
  have hload : load_content cl cid ctx = (true, ({ cl with loadable_content := alistSet cl.loadable_content cid { content with loaded := true } }, ctx.mark_content_loaded cid)) := by
    unfold load_content
    rw [hreg]
    dsimp only
    rw [hcond]
    rfl
  have hmark : ((load_content cl cid ctx).snd.snd).is_content_loaded cid = true := by
    rw [hload]
    unfold LoadContextC.mark_content_loaded LoadContextC.is_content_loaded
    split
    · simpa
    · simp
  refine ⟨by rw [hload], ?_, hmark, ?_⟩
  · rw [hload]
    unfold load_content
    dsimp only
    rw [alistGet_alistSet_self]
    dsimp only
    rw [check_condition_mark]
    rw [hcond]
    rfl
  · intro content_type acc c hrep
    unfold candidateStep
    dsimp only
    split
    · rfl
    · rw [hrep, hmark]
      rfl

/-- C8, witness: the amended statement instantiated on the concrete
always-loadable fixture. -/
theorem C8_witness :
    ((load_content c8loader "c1" c8ctx).fst = true) ∧
    ((load_content (load_content c8loader "c1" c8ctx).snd.fst "c1"
        (load_content c8loader "c1" c8ctx).snd.snd).fst = true) ∧
    ((load_content c8loader "c1" c8ctx).snd.snd).is_content_loaded "c1" = true := by
  have h := C8_second_load_returns_true c8loader c8ctx "c1" c8content rfl rfl
  exact ⟨h.1, h.2.1, h.2.2.1⟩

end Loader

/-! ### Claim C9 -/

namespace Runtime

theorem pySplitGo_blank (l : List Char) (h : ∀ c ∈ l, pyIsSpace c = true) :
    pySplitGo l [] = [] := by
  induction l with
  | nil => rfl
  | cons c rest ih =>
      have hc : pyIsSpace c = true := h c (List.mem_cons_self _ _)
      simp only [pySplitGo, hc, if_true, List.isEmpty_nil]
      exact ih (fun d hd => h d (List.mem_cons_of_mem _ hd))

/-- C9: on empty or all-whitespace input (with no plugin short-circuit
from the `before_action` hook), `step` first appends the user message to
the history, then command dispatch raises `IndexError` at the
`user_input.split()[0]` token lookup; the exception propagates, so the
turn produces no response and appends no assistant message — the
escaping state carries exactly the user message. -/
theorem C9_blank_input_raises (rt : RuntimeState) (plugin_commands : List String)
    (respond : CommandRoute → String) (user_input : String)
    (h : ∀ c ∈ user_input.data, pyIsSpace c = true) :
    step rt none plugin_commands respond user_input =
      .error (.indexError,
        { rt with turn_count := rt.turn_count + 1,
                  history := rt.history ++ [("user", user_input)] }) := by
  have hsplit : pySplit user_input = [] := pySplitGo_blank _ h
  unfold step process_command_route
  dsimp only
  rw [hsplit]
  rfl

/-- C9, witness: a single-space input on a fresh runtime raises
`IndexError` with only the user message recorded. -/
theorem C9_witness :
    step { turn_count := 0, history := [] } none [] (fun _ => "resp") " " =
      .error (.indexError, { turn_count := 1, history := [("user", " ")] }) := by
  have h : ∀ c ∈ (" ").data, pyIsSpace c = true := by decide
  exact C9_blank_input_raises { turn_count := 0, history := [] } []
    (fun _ => "resp") " " h

end Runtime

/-! ### Claim C10 -/

/-- The single event of the C10 witness. -/
def c10event : EventData :=
  { event_type := .discovery, event_id := "e1", timestamp := 100,
    player_id := "p1", session_id := "s1", location := "tavern",
    data := [("target", .vstr "forest")], tags := ["exploration"] }

/-- C10: `get_event_summary` raises `NameError` whenever the fetched
event list is non-empty, because the per-type counter adds the undefined
identifier `探索相关事件` to an integer; on an empty log it returns
normally with `total_events = 0`.  Consequently the `/events` command
handler fails on every session in which any event has been emitted. -/
theorem C10_event_summary_name_error :
    (∀ (all_events : List EventData), all_events ≠ [] →
      EventSystem.get_event_summary all_events = .error .nameError) ∧
    (EventSystem.get_event_summary [] =
      .ok { total_events := 0, event_types := [], locations := [],
            tags := [], last_event_time := none }) ∧
    (∀ (all_events : List EventData) (narration_context : String),
      all_events ≠ [] →
      Runtime.handle_events_command all_events narration_context
        = .error .nameError) := by
  refine ⟨?_, rfl, ?_⟩
  · intro all_events h
    obtain ⟨e, rest, rfl⟩ := List.exists_cons_of_ne_nil h
    rfl
  · intro all_events narration_context h
    obtain ⟨e, rest, rfl⟩ := List.exists_cons_of_ne_nil h
    rfl

/-- C10, witness: one emitted discovery event makes the summary — and
the `/events` handler — raise `NameError`. -/
theorem C10_witness :
    EventSystem.get_event_summary [c10event] = .error .nameError ∧
    Runtime.handle_events_command [c10event] "recent events"
      = .error .nameError := by
  exact ⟨C10_event_summary_name_error.1 [c10event] (by simp),
    C10_event_summary_name_error.2.2 [c10event] "recent events" (by simp)⟩

end RPG
